import Mathlib

/-!
Verification of the local encrypted vault engines (symmetric AES-256-GCM
engine and asymmetric age engine) of the flowexec/vault library.

The development shallowly embeds the Go sources:
* `crypto/crypto.go` — base64 encoding, AES-256-GCM encrypt/decrypt wrappers
  (`EncryptValue` / `DecryptValue`); Go strings are byte sequences and are
  embedded as `List Nat` with every element `< 256`.
* `KeyResolver` (`ResolveKeys` / `TryDecrypt`) and `IdentityResolver`
  (`ResolveIdentities`) — ordered fallback resolution of key material from
  environment and file sources.
* `ValidateSecretKey` and the `AES256Vault` / `AgeVault` engine state
  machines: load, init, save, secret CRUD, recipient management, close.

External primitives that the sources call (Go's `crypto/aes` +
`cipher.NewGCM`, the age X25519 parsers, the yaml/json serializers, the
process environment and the filesystem) are not part of the repository;
they are modelled by explicit executable stand-ins, each marked in its doc
comment.  Engine operations take the current time as an explicit `now`
argument (Go's `time.Now()`), and the file system and environment are
explicit function arguments.  Everything else is translated directly from
the source.  Failure paths return the pre-call vault value; the theorems
below never rely on in-memory contents after a failed save.
-/

namespace Vault

/-- Typed error taxonomy of the vault package: the `Err*` variables
referenced by the sources plus the distinguishable untyped `fmt.Errorf`
failures the engines and resolvers return. -/
inductive VErr where
  | secretNotFound
  | invalidKey
  | noAccess
  | invalidConfig
  | vaultNotFound
  | vaultCorrupt
  | decryptionFailed
  | invalidRecipient
  | lastRecipient
  | recipientNotFound
  | noSaveKey
  | noRecipients
  | plaintextTooLarge
  | encodingError
  | emptyPath
  | fileReadError (path : String)
  | identityParseError (path : String)
  deriving DecidableEq, Repr

/-- Character (byte) value of the standard base64 alphabet at sextet `s`,
mirroring the table used by Go's `encoding/base64.StdEncoding`. -/
def b64char (s : Nat) : Nat :=
  if s < 26 then 65 + s
  else if s < 52 then 97 + (s - 26)
  else if s < 62 then 48 + (s - 52)
  else if s = 62 then 43
  else 47

/-- Inverse alphabet lookup: sextet value of a base64 character byte, `none`
for bytes outside the alphabet (including the padding byte 61, `'='`). -/
def b64val (c : Nat) : Option Nat :=
  if 65 ≤ c ∧ c ≤ 90 then some (c - 65)
  else if 97 ≤ c ∧ c ≤ 122 then some (26 + (c - 97))
  else if 48 ≤ c ∧ c ≤ 57 then some (52 + (c - 48))
  else if c = 43 then some 62
  else if c = 47 then some 63
  else none

/-- Standard base64 encoding of a byte list (with `'='` padding, byte 61),
the embedding of Go's `base64.StdEncoding.EncodeToString` used by
`crypto.EncodeValue`. -/
def b64EncodeBytes : List Nat → List Nat
  | [] => []
  | [a] => [b64char (a / 4), b64char (a % 4 * 16), 61, 61]
  | [a, b] => [b64char (a / 4), b64char (a % 4 * 16 + b / 16), b64char (b % 16 * 4), 61]
  | a :: b :: c :: rest =>
      b64char (a / 4) :: b64char (a % 4 * 16 + b / 16) ::
      b64char (b % 16 * 4 + c / 64) :: b64char (c % 64) :: b64EncodeBytes rest

/-- Standard base64 decoding of a byte list, the embedding of Go's
`base64.StdEncoding.DecodeString` used by `crypto.DecodeValue`; `none`
models the decode error on malformed input. -/
def b64DecodeBytes : List Nat → Option (List Nat)
  | [] => some []
  | w :: x :: y :: z :: rest =>
      match b64val w, b64val x with
      | some vw, some vx =>
        if y = 61 then
          if z = 61 ∧ rest = [] then some [vw * 4 + vx / 16] else none
        else
          match b64val y with
          | some vy =>
            if z = 61 then
              if rest = [] then some [vw * 4 + vx / 16, vx % 16 * 16 + vy / 4] else none
            else
              match b64val z with
              | some vz =>
                match b64DecodeBytes rest with
                | some tail =>
                    some ((vw * 4 + vx / 16) :: (vx % 16 * 16 + vy / 4) ::
                          (vy % 4 * 64 + vz) :: tail)
                | none => none
              | none => none
          | none => none
      | _, _ => none
  | _ => none

/-- Embedding of `crypto.EncodeValue`: base64-encode a byte slice. -/
def EncodeValue (b : List Nat) : List Nat := b64EncodeBytes b

/-- Embedding of `crypto.DecodeValue`: base64-decode, `none` on malformed
input. -/
def DecodeValue (s : List Nat) : Option (List Nat) := b64DecodeBytes s

/-- Modelled stand-in for the external AES-GCM primitives: a deterministic
mixing value of a byte list, used to derive the keystream and the
authentication tag of the idealized AEAD below. -/
def hashBytes (l : List Nat) : Nat := l.foldl (fun h b => (h * 131 + b + 3) % 65536) 7

/-- Modelled stand-in for the external AES-CTR keystream of Go's
`cipher.NewGCM(aes.NewCipher(key))`: byte `i` of the keystream for
`(key, nonce)`. -/
def keystream (key nonce : List Nat) (i : Nat) : Nat :=
  (hashBytes key * 31 + hashBytes nonce * 17 + i * 5 + 11) % 256

/-- CTR-mode byte-wise xor encryption starting at counter `i`; applying it
twice with the same key and nonce restores the input. -/
def ctrStream (key nonce : List Nat) : Nat → List Nat → List Nat
  | _, [] => []
  | i, b :: rest => (b ^^^ keystream key nonce i) :: ctrStream key nonce (i + 1) rest

/-- Modelled stand-in for the external GCM authentication tag (16 bytes)
over the ciphertext for `(key, nonce)`. -/
def gcmTag (key nonce ct : List Nat) : List Nat :=
  (List.range 16).map
    (fun i => (hashBytes key * 73 + hashBytes nonce * 57 + hashBytes ct * 41 + i * 13 + 5) % 256)

/-- Modelled stand-in for Go's `gcm.Seal(nil, nonce, plaintext, nil)`:
CTR-encrypt the plaintext and append the 16-byte tag. -/
def gcmSeal (key nonce p : List Nat) : List Nat :=
  ctrStream key nonce 0 p ++ gcmTag key nonce (ctrStream key nonce 0 p)

/-- Modelled stand-in for Go's `gcm.Open(nil, nonce, ct, nil)`: check the
trailing 16-byte tag and CTR-decrypt; `none` is the authentication
failure. -/
def gcmOpen (key nonce ct : List Nat) : Option (List Nat) :=
  if ct.length < 16 then none
  else
    let c := ct.take (ct.length - 16)
    let t := ct.drop (ct.length - 16)
    if t = gcmTag key nonce c then some (ctrStream key nonce 0 c) else none

/-- Validity test of Go's `aes.NewCipher`: the key must be 16, 24 or 32
bytes (modelled from the external `crypto/aes` contract). -/
def aesKeyLenOk (key : List Nat) : Bool :=
  key.length = 16 ∨ key.length = 24 ∨ key.length = 32

/-- Embedding of `crypto.EncryptValue`: decode the base64 key, build the
cipher, enforce the 64 MiB plaintext ceiling, then emit the base64 encoding
of `nonce ++ gcmSeal key nonce plaintext`.  The fresh random nonce drawn by
the Go code is passed as the explicit `nonce` argument. -/
def EncryptValue (encryptionKey nonce text : List Nat) : Except VErr (List Nat) :=
  match DecodeValue encryptionKey with
  | none => Except.error VErr.encodingError
  | some dk =>
    if ¬ aesKeyLenOk dk then Except.error VErr.invalidKey
    else if 64 * 1024 * 1024 < text.length then Except.error VErr.plaintextTooLarge
    else Except.ok (EncodeValue (nonce ++ gcmSeal dk nonce text))

/-- Embedding of `crypto.DecryptValue`: decode the base64 key and text,
split off the 12-byte GCM nonce, and open the AEAD; a short ciphertext or
an authentication failure is `decryptionFailed`. -/
def DecryptValue (encryptionKey text : List Nat) : Except VErr (List Nat) :=
  match DecodeValue encryptionKey with
  | none => Except.error VErr.encodingError
  | some dk =>
    if ¬ aesKeyLenOk dk then Except.error VErr.invalidKey
    else
      match DecodeValue text with
      | none => Except.error VErr.encodingError
      | some ct =>
        if ct.length < 12 then Except.error VErr.decryptionFailed
        else
          match gcmOpen dk (ct.take 12) (ct.drop 12) with
          | some p => Except.ok p
          | none => Except.error VErr.decryptionFailed

/-- Source type of a key or identity source (the `envSource` / `fileSource`
string constants `"env"` / `"file"`). -/
inductive SourceType where
  | env
  | file
  deriving DecidableEq, Repr

/-- Embedding of the `KeySource` configuration record. -/
structure KeySource where
  type : SourceType
  name : String := ""
  path : String := ""
  deriving DecidableEq, Repr

/-- Modelled from the spec: the fixed default environment variable name for
key material (`DefaultVaultKeyEnv`; its declaring file is not under
`src/`). -/
def DefaultVaultKeyEnv : String := "FLOW_VAULT_KEY"

/-- Whitespace test used by Go's `strings.TrimSpace` (ASCII portion). -/
def isSpaceByte (b : Nat) : Bool :=
  b = 32 ∨ b = 9 ∨ b = 10 ∨ b = 13 ∨ b = 11 ∨ b = 12

/-- Byte-level `strings.TrimSpace`. -/
def trimSpaceBytes (l : List Nat) : List Nat :=
  ((l.dropWhile isSpaceByte).reverse.dropWhile isSpaceByte).reverse

/-- Embedding of `KeyResolver.fromEnvironment`; the process environment is
the explicit total function `env` (Go's `os.Getenv` yields `""`, here `[]`,
for unset variables). -/
def keyFromEnvironment (env : String → List Nat) (envVar : String) : List Nat :=
  env (if envVar = "" then DefaultVaultKeyEnv else envVar)

/-- Embedding of `KeyResolver.fromFile`; the filesystem is the explicit
function `fs` (`none` models an unreadable file, and path expansion is
folded into `fs`). -/
def keyFromFile (fs : String → Option (List Nat)) (path : String) : Except VErr (List Nat) :=
  if path = "" then Except.error VErr.emptyPath
  else
    match fs path with
    | none => Except.error (VErr.fileReadError path)
    | some bytes => Except.ok (trimSpaceBytes bytes)

/-- Defaulting performed by `NewKeyResolver`: an empty source list becomes
a single env source with the default variable name. -/
def defaultKeySources (sources : List KeySource) : List KeySource :=
  if sources.isEmpty then [{ type := SourceType.env, name := DefaultVaultKeyEnv }] else sources

/-- The source loop of `KeyResolver.ResolveKeys`: env sources that are
unset and file sources that fail to read (or are empty) are skipped. -/
def collectKeys (env : String → List Nat) (fs : String → Option (List Nat)) :
    List KeySource → List (List Nat)
  | [] => []
  | s :: rest =>
    match s.type with
    | SourceType.env =>
      let key := keyFromEnvironment env s.name
      if key ≠ [] then key :: collectKeys env fs rest else collectKeys env fs rest
    | SourceType.file =>
      match keyFromFile fs s.path with
      | Except.ok key =>
          if key ≠ [] then key :: collectKeys env fs rest else collectKeys env fs rest
      | Except.error _ => collectKeys env fs rest

/-- Embedding of `KeyResolver.ResolveKeys` (composed with the
`NewKeyResolver` defaulting): ordered candidate keys, or `noAccess` when no
source yields one. -/
def ResolveKeys (sources : List KeySource) (env : String → List Nat)
    (fs : String → Option (List Nat)) : Except VErr (List (List Nat)) :=
  let keys := collectKeys env fs (defaultKeySources sources)
  if keys.isEmpty then Except.error VErr.noAccess else Except.ok keys

/-- The key-trial loop of `KeyResolver.TryDecrypt`: first key whose
`DecryptValue` succeeds wins; `decryptionFailed` when none does. -/
def tryKeys (encryptedData : List Nat) : List (List Nat) → Except VErr (List Nat × List Nat)
  | [] => Except.error VErr.decryptionFailed
  | key :: rest =>
    match DecryptValue key encryptedData with
    | Except.ok decryptedData => Except.ok (decryptedData, key)
    | Except.error _ => tryKeys encryptedData rest

/-- Embedding of `KeyResolver.TryDecrypt`: resolve keys, then trial-decrypt
in resolution order. -/
def TryDecrypt (sources : List KeySource) (env : String → List Nat)
    (fs : String → Option (List Nat)) (encryptedData : List Nat) :
    Except VErr (List Nat × List Nat) :=
  match ResolveKeys sources env fs with
  | Except.error e => Except.error e
  | Except.ok keys => tryKeys encryptedData keys

/-- Embedding of the `IdentitySource` configuration record. -/
structure IdentitySource where
  type : SourceType
  name : String := ""
  path : String := ""
  deriving DecidableEq, Repr

/-- Modelled stand-in for `age.ParseX25519Identity`: an identity string is
well-formed iff it carries the age secret-key prefix. -/
def parseIdentityOk (s : String) : Bool := "AGE-SECRET-KEY-1".data.isPrefixOf s.data

/-- Modelled stand-in for `age.ParseX25519Recipient`: a recipient string is
well-formed iff it carries the age public-key prefix. -/
def parseRecipientOk (publicKey : String) : Bool := "age1".data.isPrefixOf publicKey.data

/-- Embedding of `IdentityResolver.fromEnvironment`: unset variable or
parse failure yields `none` (the caller skips the source). -/
def identityFromEnvironment (env : String → String) (envVar : String) : Option String :=
  let name := if envVar = "" then DefaultVaultKeyEnv else envVar
  let keyStr := env name
  if keyStr = "" then none
  else if parseIdentityOk keyStr then some keyStr else none

/-- Whitespace test used by the character-level `strings.TrimSpace`. -/
def isSpaceChar (c : Char) : Bool :=
  c.toNat = 32 ∨ c.toNat = 9 ∨ c.toNat = 10 ∨ c.toNat = 13 ∨ c.toNat = 11 ∨ c.toNat = 12

/-- Character-level `strings.TrimSpace`. -/
def trimString (s : String) : String :=
  String.mk (((s.data.dropWhile isSpaceChar).reverse.dropWhile isSpaceChar).reverse)

/-- Embedding of `IdentityResolver.fromFile`: empty path, unreadable file
and parse failure are all errors (identities are modelled by their source
strings, trimmed as by `strings.TrimSpace`). -/
def identityFromFile (fs : String → Option String) (path : String) : Except VErr String :=
  if path = "" then Except.error VErr.emptyPath
  else
    match fs path with
    | none => Except.error (VErr.fileReadError path)
    | some contents =>
      if parseIdentityOk (trimString contents) then Except.ok (trimString contents)
      else Except.error (VErr.identityParseError path)

/-- Defaulting performed by `NewIdentityResolver`. -/
def defaultIdentitySources (sources : List IdentitySource) : List IdentitySource :=
  if sources.isEmpty then [{ type := SourceType.env, name := DefaultVaultKeyEnv }] else sources

/-- The source loop of `IdentityResolver.ResolveIdentities`: env failures
are skipped, file failures abort the whole resolution. -/
def collectIdentities (env : String → String) (fs : String → Option String) :
    List IdentitySource → Except VErr (List String)
  | [] => Except.ok []
  | s :: rest =>
    match s.type with
    | SourceType.env =>
      match identityFromEnvironment env s.name with
      | some id =>
        match collectIdentities env fs rest with
        | Except.error e => Except.error e
        | Except.ok ids => Except.ok (id :: ids)
      | none => collectIdentities env fs rest
    | SourceType.file =>
      match identityFromFile fs s.path with
      | Except.error e => Except.error e
      | Except.ok id =>
        match collectIdentities env fs rest with
        | Except.error e => Except.error e
        | Except.ok ids => Except.ok (id :: ids)

/-- Embedding of `IdentityResolver.ResolveIdentities` (composed with the
`NewIdentityResolver` defaulting). -/
def ResolveIdentities (sources : List IdentitySource) (env : String → String)
    (fs : String → Option String) : Except VErr (List String) :=
  match collectIdentities env fs (defaultIdentitySources sources) with
  | Except.error e => Except.error e
  | Except.ok ids => if ids.isEmpty then Except.error VErr.noAccess else Except.ok ids

/-- Embedding of the `Metadata` record; Go `time.Time` instants are
modelled as `Nat`. -/
structure Metadata where
  created : Nat
  lastModified : Nat
  deriving DecidableEq, Repr

/-- Character class of the secret-name regular expression
`^[a-zA-Z0-9-_.]+$` of `ValidateSecretKey`. -/
def isValidKeyChar (c : Char) : Bool :=
  ('a' ≤ c ∧ c ≤ 'z') ∨ ('A' ≤ c ∧ c ≤ 'Z') ∨ ('0' ≤ c ∧ c ≤ '9') ∨
    c = '-' ∨ c = '_' ∨ c = '.'

/-- Embedding of `ValidateSecretKey`: empty names and names with a
character outside the class fail with `invalidKey`. -/
def ValidateSecretKey (reference : String) : Except VErr Unit :=
  if reference = "" then Except.error VErr.invalidKey
  else if reference.data.all isValidKeyChar then Except.ok ()
  else Except.error VErr.invalidKey

/-- Lookup in the secret map (Go `value, exists := m[key]`); the Go
`map[string]string` is an association list with unique keys. -/
def mapGet (m : List (String × String)) (key : String) : Option String :=
  match m with
  | [] => none
  | (k, v) :: rest => if k = key then some v else mapGet rest key

/-- Upsert into the secret map (Go `m[key] = value`). -/
def mapSet (m : List (String × String)) (key value : String) : List (String × String) :=
  match m with
  | [] => [(key, value)]
  | (k, v) :: rest => if k = key then (k, value) :: rest else (k, v) :: mapSet rest key value

/-- Removal from the secret map (Go `delete(m, key)`). -/
def mapDel (m : List (String × String)) (key : String) : List (String × String) :=
  match m with
  | [] => []
  | (k, v) :: rest => if k = key then mapDel rest key else (k, v) :: mapDel rest key

/-- Embedding of `AESState`. -/
structure AESState where
  metadata : Metadata
  version : Int
  id : String
  secrets : List (String × String)
  deriving DecidableEq, Repr

/-- Embedding of the `AES256Vault` engine object.  `state = none` models
the Go nil state pointer (both before `load`/`init` and after `Close`).
Secrets are represented by their plaintext strings, because
`NewSecretValue([]byte(v)).PlainTextString() = v`. -/
structure AES256Vault where
  id : String
  state : Option AESState
  dek : String
  deriving DecidableEq, Repr

/-- Result of an engine operation: `none` models a Go nil-pointer panic
(dereference of the cleared state), `some` a returned value or typed
error. -/
abbrev EngineResult (α : Type) := Option (Except VErr α)

/-- Embedding of `AES256Vault.save`: nil state is a silent no-op, an empty
key is an error, otherwise `LastModified` is set to `now`.  Marshalling,
encryption with the active key and the temp-file-plus-rename write are
abstracted as succeeding (they do not touch the in-memory state). -/
def AES256Vault.save (v : AES256Vault) (now : Nat) : Except VErr AES256Vault :=
  match v.state with
  | none => Except.ok v
  | some st =>
    if v.dek = "" then Except.error VErr.noSaveKey
    else
      let md : Metadata := { st.metadata with lastModified := now }
      Except.ok { v with state := some { st with metadata := md } }

/-- Embedding of `AES256Vault.init`: first resolved key becomes the active
key; fresh state carries version 1, both timestamps at `now` and no
secrets; the state is persisted immediately. -/
def AES256Vault.init (id : String) (keys : List String) (now : Nat) :
    Except VErr AES256Vault :=
  match keys with
  | [] => Except.error VErr.noAccess
  | k :: _ =>
    AES256Vault.save
      { id := id, dek := k,
        state := some { metadata := { created := now, lastModified := now },
                        version := 1, id := id, secrets := [] } } now

/-- Symbolic ciphertext of a serialized AES vault state at engine
granularity: the payload together with the key that sealed it (the AEAD
guarantees that exactly the sealing key decrypts, and the yaml layer is an
injective serialization). -/
structure EncAESFile where
  key : String
  payload : AESState
  deriving DecidableEq, Repr

/-- Embedding of `AES256Vault.load` at engine granularity: an absent or
empty backing file leaves the state `none`; otherwise `TryDecrypt` over
the resolved keys (symbolically, the file decrypts exactly under its
sealing key, which becomes the active key) followed by unmarshalling.
Mirrors the source in that the decoded state's `version` field is never
inspected. -/
def AES256Vault.load (id : String) (keys : List String) (file : Option EncAESFile) :
    Except VErr AES256Vault :=
  match file with
  | none => Except.ok { id := id, state := none, dek := "" }
  | some f =>
    if keys.isEmpty then Except.error VErr.noAccess
    else if keys.contains f.key then
      Except.ok { id := id, state := some f.payload, dek := f.key }
    else Except.error VErr.decryptionFailed

/-- Embedding of `AES256Vault.GetSecret`. -/
def AES256Vault.GetSecret (v : AES256Vault) (key : String) : EngineResult String :=
  match v.state with
  | none => none
  | some st =>
    some (match mapGet st.secrets key with
      | some value => Except.ok value
      | none => Except.error VErr.secretNotFound)

/-- Embedding of `AES256Vault.SetSecret`: validate the name, then upsert
and save. -/
def AES256Vault.SetSecret (v : AES256Vault) (now : Nat) (key value : String) :
    EngineResult AES256Vault :=
  match ValidateSecretKey key with
  | Except.error e => some (Except.error e)
  | Except.ok _ =>
    match v.state with
    | none => none
    | some st =>
      some (AES256Vault.save
        { v with state := some { st with secrets := mapSet st.secrets key value } } now)

/-- Embedding of `AES256Vault.DeleteSecret`. -/
def AES256Vault.DeleteSecret (v : AES256Vault) (now : Nat) (key : String) :
    EngineResult AES256Vault :=
  match v.state with
  | none => none
  | some st =>
    match mapGet st.secrets key with
    | none => some (Except.error VErr.secretNotFound)
    | some _ =>
      some (AES256Vault.save
        { v with state := some { st with secrets := mapDel st.secrets key } } now)

/-- Embedding of `AES256Vault.HasSecret`. -/
def AES256Vault.HasSecret (v : AES256Vault) (key : String) : EngineResult Bool :=
  match v.state with
  | none => none
  | some st => some (Except.ok (mapGet st.secrets key).isSome)

/-- Embedding of `AES256Vault.ListSecrets`. -/
def AES256Vault.ListSecrets (v : AES256Vault) : EngineResult (List String) :=
  match v.state with
  | none => none
  | some st => some (Except.ok (st.secrets.map Prod.fst))

/-- Embedding of `AES256Vault.Close`: clears key and state and returns
nil. -/
def AES256Vault.Close (v : AES256Vault) : AES256Vault × Except VErr Unit :=
  ({ v with dek := "", state := none }, Except.ok ())

/-- Embedding of `AgeState`. -/
structure AgeState where
  metadata : Metadata
  version : Int
  id : String
  recipients : List String
  secrets : List (String × String)
  deriving DecidableEq, Repr

/-- Embedding of the `AgeVault` engine object; parsed `age.Recipient` and
`age.Identity` values are modelled by their source strings. -/
structure AgeVault where
  id : String
  cfgRecipients : List String
  state : Option AgeState
  recipients : List String
  identities : List String
  deriving DecidableEq, Repr

/-- Embedding of `AgeVault.addRecipientToState`: parse the key, no-op if
already present, else append. -/
def AgeVault.addRecipientToState (st : AgeState) (publicKey : String) : Except VErr AgeState :=
  if ¬ parseRecipientOk publicKey then Except.error VErr.invalidRecipient
  else if st.recipients.contains publicKey then Except.ok st
  else Except.ok { st with recipients := st.recipients ++ [publicKey] }

/-- Embedding of `AgeVault.parseRecipients`: all recipient strings must
parse; the parsed set equals the state's recipient list. -/
def parseRecipientsList (recipients : List String) : Except VErr (List String) :=
  if recipients.all parseRecipientOk then Except.ok recipients
  else Except.error VErr.invalidRecipient

/-- Removal of the first matching element, as the `RemoveRecipient` slice
splice performs. -/
def removeFirst (l : List String) (x : String) : List String :=
  match l with
  | [] => []
  | y :: rest => if y = x then rest else y :: removeFirst rest x

/-- Embedding of `AgeVault.save`: nil state is a silent no-op, an empty
parsed-recipient set is an error, otherwise `LastModified` is set to
`now`; age encryption to all current recipients and the atomic file write
are abstracted as succeeding. -/
def AgeVault.save (v : AgeVault) (now : Nat) : Except VErr AgeVault :=
  match v.state with
  | none => Except.ok v
  | some st =>
    if v.recipients.isEmpty then Except.error VErr.noRecipients
    else
      let md : Metadata := { st.metadata with lastModified := now }
      Except.ok { v with state := some { st with metadata := md } }

/-- The `init` loop that re-adds every configured recipient through
`addRecipientToState`. -/
def addRecipientsToState : AgeState → List String → Except VErr AgeState
  | st, [] => Except.ok st
  | st, r :: rest =>
    match AgeVault.addRecipientToState st r with
    | Except.error e => Except.error e
    | Except.ok st' => addRecipientsToState st' rest

/-- Embedding of `AgeVault.init`: fresh state (version 1, both timestamps
`now`, configured recipients, no secrets), validation of every configured
recipient, the non-empty recipient check, recipient parsing and an
immediate save. -/
def AgeVault.init (id : String) (cfgRecipients identities : List String) (now : Nat) :
    Except VErr AgeVault :=
  let st0 : AgeState :=
    { metadata := { created := now, lastModified := now },
      version := 1, id := id, recipients := cfgRecipients, secrets := [] }
  match addRecipientsToState st0 cfgRecipients with
  | Except.error e => Except.error e
  | Except.ok st =>
    if st.recipients.isEmpty then Except.error VErr.noRecipients
    else
      match parseRecipientsList st.recipients with
      | Except.error e => Except.error e
      | Except.ok recs =>
        AgeVault.save
          { id := id, cfgRecipients := cfgRecipients, state := some st,
            recipients := recs, identities := identities } now

/-- Modelled stand-in for X25519 public-key derivation: the recipient
string corresponding to an identity string. -/
def agePubOf (identity : String) : String := String.mk ("age1".data ++ identity.data.drop 16)

/-- Modelled stand-in for multi-recipient age decryption at engine
granularity: some held identity corresponds to a recipient of the file. -/
def ageCanDecrypt (identities fileRecipients : List String) : Bool :=
  identities.any (fun i => fileRecipients.contains (agePubOf i))

/-- Symbolic age container of a serialized age vault state: the recipient
set it was sealed to, and the payload. -/
structure EncAgeFile where
  recipients : List String
  payload : AgeState
  deriving DecidableEq, Repr

/-- Embedding of `AgeVault.load` at engine granularity: absent or empty
file leaves the state `none`; otherwise age decryption with the resolved
identities, unmarshalling, and `parseRecipients` on the decoded state.
Mirrors the source in that the decoded state's `version` field is never
inspected. -/
def AgeVault.load (id : String) (cfgRecipients identities : List String)
    (file : Option EncAgeFile) : Except VErr AgeVault :=
  match file with
  | none =>
    Except.ok { id := id, cfgRecipients := cfgRecipients, state := none,
                recipients := [], identities := identities }
  | some f =>
    if ¬ ageCanDecrypt identities f.recipients then Except.error VErr.decryptionFailed
    else
      match parseRecipientsList f.payload.recipients with
      | Except.error e => Except.error e
      | Except.ok recs =>
        Except.ok { id := id, cfgRecipients := cfgRecipients, state := some f.payload,
                    recipients := recs, identities := identities }

/-- Embedding of `AgeVault.GetSecret`. -/
def AgeVault.GetSecret (v : AgeVault) (key : String) : EngineResult String :=
  match v.state with
  | none => none
  | some st =>
    some (match mapGet st.secrets key with
      | some value => Except.ok value
      | none => Except.error VErr.secretNotFound)

/-- Embedding of `AgeVault.SetSecret`. -/
def AgeVault.SetSecret (v : AgeVault) (now : Nat) (key value : String) :
    EngineResult AgeVault :=
  match ValidateSecretKey key with
  | Except.error e => some (Except.error e)
  | Except.ok _ =>
    match v.state with
    | none => none
    | some st =>
      some (AgeVault.save
        { v with state := some { st with secrets := mapSet st.secrets key value } } now)

/-- Embedding of `AgeVault.DeleteSecret`. -/
def AgeVault.DeleteSecret (v : AgeVault) (now : Nat) (key : String) : EngineResult AgeVault :=
  match v.state with
  | none => none
  | some st =>
    match mapGet st.secrets key with
    | none => some (Except.error VErr.secretNotFound)
    | some _ =>
      some (AgeVault.save
        { v with state := some { st with secrets := mapDel st.secrets key } } now)

/-- Embedding of `AgeVault.HasSecret`. -/
def AgeVault.HasSecret (v : AgeVault) (key : String) : EngineResult Bool :=
  match v.state with
  | none => none
  | some st => some (Except.ok (mapGet st.secrets key).isSome)

/-- Embedding of `AgeVault.ListSecrets`. -/
def AgeVault.ListSecrets (v : AgeVault) : EngineResult (List String) :=
  match v.state with
  | none => none
  | some st => some (Except.ok (st.secrets.map Prod.fst))

/-- Embedding of `AgeVault.Close`: clears state, recipients and
identities. -/
def AgeVault.Close (v : AgeVault) : AgeVault × Except VErr Unit :=
  ({ v with state := none, recipients := [], identities := [] }, Except.ok ())

/-- Embedding of `AgeVault.AddRecipient`: `addRecipientToState`, then
`parseRecipients`, then save. -/
def AgeVault.AddRecipient (v : AgeVault) (now : Nat) (publicKey : String) :
    EngineResult AgeVault :=
  match v.state with
  | none => none
  | some st =>
    some (match AgeVault.addRecipientToState st publicKey with
      | Except.error e => Except.error e
      | Except.ok st' =>
        match parseRecipientsList st'.recipients with
        | Except.error e => Except.error e
        | Except.ok recs =>
          AgeVault.save { v with state := some st', recipients := recs } now)

/-- Embedding of `AgeVault.RemoveRecipient`: the last-recipient guard is
checked first, then membership, then removal, re-parse and save. -/
def AgeVault.RemoveRecipient (v : AgeVault) (now : Nat) (publicKey : String) :
    EngineResult AgeVault :=
  match v.state with
  | none => none
  | some st =>
    some (
      if st.recipients.length ≤ 1 then Except.error VErr.lastRecipient
      else if st.recipients.contains publicKey then
        match parseRecipientsList (removeFirst st.recipients publicKey) with
        | Except.error e => Except.error e
        | Except.ok recs =>
          AgeVault.save
            { v with state := some { st with recipients := removeFirst st.recipients publicKey },
                     recipients := recs } now
      else Except.error VErr.recipientNotFound)

/-- Embedding of `AgeVault.ListRecipients` (the returned slice is a copy;
copying is the identity here). -/
def AgeVault.ListRecipients (v : AgeVault) : EngineResult (List String) :=
  match v.state with
  | none => none
  | some st => some (Except.ok st.recipients)

/-- Concrete resolver scenario used by the C3 witness: env var `A` holds a
key that cannot decrypt the witness ciphertext, env var `B` holds the key
that sealed it. -/
def witEnvKeys : String → List Nat := fun n =>
  if n = "A" then EncodeValue (List.replicate 32 1)
  else if n = "B" then EncodeValue (List.replicate 32 0) else []

/-- Key sources of the witness scenario: `A` is consulted before `B`. -/
def witKeySources : List KeySource :=
  [⟨SourceType.env, "A", ""⟩, ⟨SourceType.env, "B", ""⟩]

/-- Filesystem with no readable file. -/
def witFsNone : String → Option (List Nat) := fun _ => none

/-- Ciphertext of the witness scenario, sealed under the key held in `B`. -/
def witCiphertext : List Nat :=
  EncodeValue (List.replicate 12 0 ++
    gcmSeal (List.replicate 32 0) (List.replicate 12 0) [104, 105])

theorem mapGet_mapSet_self (m : List (String × String)) (k v : String) :
    mapGet (mapSet m k v) k = some v := by
  induction m with
  | nil => simp [mapSet, mapGet]
  | cons p rest ih =>
    obtain ⟨k', v'⟩ := p
    by_cases hk : k' = k
    · simp [mapSet, mapGet, hk]
    · simp [mapSet, mapGet, hk, ih]

theorem mapGet_mapDel_self (m : List (String × String)) (k : String) :
    mapGet (mapDel m k) k = none := by
  induction m with
  | nil => simp [mapDel, mapGet]
  | cons p rest ih =>
    obtain ⟨k', v'⟩ := p
    by_cases hk : k' = k
    · simp [mapDel, hk, ih]
    · simp [mapDel, mapGet, hk, ih]

theorem aes_set_ok (v v' : AES256Vault) (now : Nat) (k val : String)
    (h : v.SetSecret now k val = some (Except.ok v')) :
    ∃ st, v.state = some st ∧ v.dek ≠ "" ∧
      v' = { v with state := some { st with
                secrets := mapSet st.secrets k val,
                metadata := { st.metadata with lastModified := now } } } := by
  cases hval : ValidateSecretKey k with
  | error e => simp [AES256Vault.SetSecret, hval] at h
  | ok u =>
    cases hst : v.state with
    | none => simp [AES256Vault.SetSecret, hval, hst] at h
    | some st =>
      refine ⟨st, rfl, ?_⟩
      simp only [AES256Vault.SetSecret, hval, hst, AES256Vault.save] at h
      by_cases hdek : v.dek = "" <;> simp [hdek] at h
      exact ⟨hdek, h.symm⟩

theorem aes_del_ok (v v' : AES256Vault) (now : Nat) (k : String)
    (h : v.DeleteSecret now k = some (Except.ok v')) :
    ∃ st, v.state = some st ∧ v.dek ≠ "" ∧ (mapGet st.secrets k).isSome ∧
      v' = { v with state := some { st with
                secrets := mapDel st.secrets k,
                metadata := { st.metadata with lastModified := now } } } := by
  cases hst : v.state with
  | none => simp [AES256Vault.DeleteSecret, hst] at h
  | some st =>
    refine ⟨st, rfl, ?_⟩
    cases hget : mapGet st.secrets k with
    | none => simp [AES256Vault.DeleteSecret, hst, hget] at h
    | some w =>
      simp only [AES256Vault.DeleteSecret, hst, hget, AES256Vault.save] at h
      by_cases hdek : v.dek = "" <;> simp [hdek] at h
      exact ⟨hdek, by simp [hget], h.symm⟩

theorem age_set_ok (v v' : AgeVault) (now : Nat) (k val : String)
    (h : v.SetSecret now k val = some (Except.ok v')) :
    ∃ st, v.state = some st ∧ ¬ v.recipients.isEmpty ∧
      v' = { v with state := some { st with
                secrets := mapSet st.secrets k val,
                metadata := { st.metadata with lastModified := now } } } := by
  cases hval : ValidateSecretKey k with
  | error e => simp [AgeVault.SetSecret, hval] at h
  | ok u =>
    cases hst : v.state with
    | none => simp [AgeVault.SetSecret, hval, hst] at h
    | some st =>
      refine ⟨st, rfl, ?_⟩
      simp only [AgeVault.SetSecret, hval, hst, AgeVault.save] at h
      by_cases hrec : v.recipients.isEmpty <;> simp [hrec] at h
      exact ⟨by simp [hrec], h.symm⟩

theorem age_del_ok (v v' : AgeVault) (now : Nat) (k : String)
    (h : v.DeleteSecret now k = some (Except.ok v')) :
    ∃ st, v.state = some st ∧ ¬ v.recipients.isEmpty ∧ (mapGet st.secrets k).isSome ∧
      v' = { v with state := some { st with
                secrets := mapDel st.secrets k,
                metadata := { st.metadata with lastModified := now } } } := by
  cases hst : v.state with
  | none => simp [AgeVault.DeleteSecret, hst] at h
  | some st =>
    refine ⟨st, rfl, ?_⟩
    cases hget : mapGet st.secrets k with
    | none => simp [AgeVault.DeleteSecret, hst, hget] at h
    | some w =>
      simp only [AgeVault.DeleteSecret, hst, hget, AgeVault.save] at h
      by_cases hrec : v.recipients.isEmpty <;> simp [hrec] at h
      exact ⟨by simp [hrec], by simp [hget], h.symm⟩

theorem chunk_div (x y k : Nat) (hk : 0 < k) (hy : y < k) : (x * k + y) / k = x := by
  rw [add_comm, Nat.add_mul_div_right _ _ hk, Nat.div_eq_of_lt hy, Nat.zero_add]

theorem chunk_mod (x y k : Nat) (hy : y < k) : (x * k + y) % k = y := by
  rw [add_comm, Nat.add_mul_mod_self_right, Nat.mod_eq_of_lt hy]

theorem b64val_b64char_fin : ∀ s : Fin 64, b64val (b64char s.1) = some s.1 ∧ b64char s.1 ≠ 61 := by
  decide

theorem b64val_b64char (s : Nat) (h : s < 64) : b64val (b64char s) = some s :=
  (b64val_b64char_fin ⟨s, h⟩).1

theorem b64char_ne_61 (s : Nat) (h : s < 64) : b64char s ≠ 61 :=
  (b64val_b64char_fin ⟨s, h⟩).2

/-- Decoding inverts encoding on byte lists (every element below 256). -/
theorem b64_roundtrip : (l : List Nat) → (∀ x ∈ l, x < 256) →
    b64DecodeBytes (b64EncodeBytes l) = some l
  | [], _ => rfl
  | [a], h => by
    have ha : a < 256 := h a (by simp)
    have h1 : a / 4 < 64 := by omega
    have h2 : a % 4 * 16 < 64 := by omega
    simp only [b64EncodeBytes, b64DecodeBytes, b64val_b64char _ h1, b64val_b64char _ h2]
    simp
    all_goals omega
  | [a, b], h => by
    have ha : a < 256 := h a (by simp)
    have hb : b < 256 := h b (by simp)
    have h1 : a / 4 < 64 := by omega
    have h2 : a % 4 * 16 + b / 16 < 64 := by omega
    have h3 : b % 16 * 4 < 64 := by omega
    simp only [b64EncodeBytes, b64DecodeBytes, b64val_b64char _ h1, b64val_b64char _ h2,
      b64val_b64char _ h3, if_neg (b64char_ne_61 _ h3)]
    have em : (a % 4 * 16 + b / 16) % 16 = b / 16 := chunk_mod _ _ _ (by omega)
    simp [em]
    all_goals omega
  | a :: b :: c :: rest, h => by
    have ha : a < 256 := h a (by simp)
    have hb : b < 256 := h b (by simp)
    have hc : c < 256 := h c (by simp)
    have h1 : a / 4 < 64 := by omega
    have h2 : a % 4 * 16 + b / 16 < 64 := by omega
    have h3 : b % 16 * 4 + c / 64 < 64 := by omega
    have h4 : c % 64 < 64 := by omega
    have ih := b64_roundtrip rest (fun x hx => h x (by simp [hx]))
    simp only [b64EncodeBytes, b64DecodeBytes, b64val_b64char _ h1, b64val_b64char _ h2,
      b64val_b64char _ h3, b64val_b64char _ h4, if_neg (b64char_ne_61 _ h3),
      if_neg (b64char_ne_61 _ h4), ih]
    have em1 : (a % 4 * 16 + b / 16) % 16 = b / 16 := chunk_mod _ _ _ (by omega)
    have em2 : (b % 16 * 4 + c / 64) % 4 = c / 64 := chunk_mod _ _ _ (by omega)
    have ed1 : (a % 4 * 16 + b / 16) / 16 = a % 4 := chunk_div _ _ _ (by omega) (by omega)
    have ed2 : (b % 16 * 4 + c / 64) / 4 = b % 16 := chunk_div _ _ _ (by omega) (by omega)
    simp [em1, em2, ed1, ed2]
    all_goals omega

theorem ctrStream_length (key nonce : List Nat) :
    ∀ i p, (ctrStream key nonce i p).length = p.length := by
  intro i p
  induction p generalizing i with
  | nil => rfl
  | cons b rest ih => simp [ctrStream, ih]

theorem ctrStream_invol (key nonce : List Nat) :
    ∀ i p, ctrStream key nonce i (ctrStream key nonce i p) = p := by
  intro i p
  induction p generalizing i with
  | nil => rfl
  | cons b rest ih => simp [ctrStream, ih, Nat.xor_cancel_right]

theorem ctrStream_lt_256 (key nonce : List Nat) :
    ∀ i p, (∀ x ∈ p, x < 256) → ∀ y ∈ ctrStream key nonce i p, y < 256 := by
  intro i p
  induction p generalizing i with
  | nil => intro _ y hy; simp [ctrStream] at hy
  | cons b rest ih =>
    intro h y hy
    simp only [ctrStream, List.mem_cons] at hy
    rcases hy with hy | hy
    · subst hy
      have hb : b < 256 := h b (by simp)
      have hk : keystream key nonce i < 256 := Nat.mod_lt _ (by norm_num)
      have := Nat.xor_lt_two_pow (n := 8) (by simpa using hb) (by simpa using hk)
      simpa using this
    · exact ih (i + 1) (fun x hx => h x (by simp [hx])) y hy

theorem gcmTag_lt_256 (key nonce ct : List Nat) : ∀ y ∈ gcmTag key nonce ct, y < 256 := by
  intro y hy
  simp only [gcmTag, List.mem_map] at hy
  obtain ⟨i, _, rfl⟩ := hy
  exact Nat.mod_lt _ (by norm_num)

theorem gcmTag_length (key nonce ct : List Nat) : (gcmTag key nonce ct).length = 16 := by
  simp [gcmTag]

/-- Opening a sealed message with the same key and nonce recovers the
plaintext. -/
theorem gcmOpen_gcmSeal (key nonce p : List Nat) :
    gcmOpen key nonce (gcmSeal key nonce p) = some p := by
  have hlen : (gcmSeal key nonce p).length = p.length + 16 := by
    simp [gcmSeal, ctrStream_length, gcmTag_length]
  have hsub : (gcmSeal key nonce p).length - 16 = (ctrStream key nonce 0 p).length := by
    simp [hlen, ctrStream_length]
  have e : p.length + 16 - 16 = (ctrStream key nonce 0 p).length := by
    simp [ctrStream_length]
  simp only [gcmOpen, hlen]
  rw [if_neg (by omega)]
  simp only [gcmSeal, e, List.take_left, List.drop_left]
  simp [ctrStream_invol]

theorem gcmSeal_lt_256 (key nonce p : List Nat) (hp : ∀ x ∈ p, x < 256) :
    ∀ y ∈ gcmSeal key nonce p, y < 256 := by
  intro y hy
  simp only [gcmSeal, List.mem_append] at hy
  rcases hy with hy | hy
  · exact ctrStream_lt_256 key nonce 0 p hp y hy
  · exact gcmTag_lt_256 _ _ _ y hy

/-- C1: for every valid base64-encoded 32-byte key and every plaintext
byte string below the 64 MiB size ceiling (empty, unicode and large
strings included), decryption inverts encryption:
`DecryptValue k (EncryptValue k p) = p`.  The random 12-byte GCM nonce
drawn inside `EncryptValue` is universally quantified. -/
theorem c1_encrypt_decrypt_roundtrip
    (kb p nonce : List Nat)
    (hk32 : kb.length = 32) (hkb : ∀ x ∈ kb, x < 256)
    (hp : ∀ x ∈ p, x < 256) (hplen : p.length ≤ 64 * 1024 * 1024)
    (hn : nonce.length = 12) (hnb : ∀ x ∈ nonce, x < 256) :
    ∃ ct, EncryptValue (EncodeValue kb) nonce p = Except.ok ct ∧
      DecryptValue (EncodeValue kb) ct = Except.ok p := by
  have hdk : DecodeValue (EncodeValue kb) = some kb := b64_roundtrip kb hkb
  have hkeyok : aesKeyLenOk kb = true := by simp [aesKeyLenOk, hk32]
  have hctbytes : ∀ x ∈ nonce ++ gcmSeal kb nonce p, x < 256 := by
    intro x hx
    rcases List.mem_append.mp hx with hx | hx
    · exact hnb x hx
    · exact gcmSeal_lt_256 kb nonce p hp x hx
  have hct : DecodeValue (EncodeValue (nonce ++ gcmSeal kb nonce p)) =
      some (nonce ++ gcmSeal kb nonce p) := b64_roundtrip _ hctbytes
  have hslen : (gcmSeal kb nonce p).length = p.length + 16 := by
    simp [gcmSeal, ctrStream_length, gcmTag_length]
  refine ⟨EncodeValue (nonce ++ gcmSeal kb nonce p), ?_, ?_⟩
  · simp only [EncryptValue, hdk, hkeyok]
    rw [if_neg (by simp), if_neg (by omega)]
  · simp only [DecryptValue, hdk, hkeyok, hct]
    rw [if_neg (by simp)]
    have hlen : (nonce ++ gcmSeal kb nonce p).length = 12 + (p.length + 16) := by
      simp [hn, hslen]
    rw [if_neg (by omega)]
    have htake : (nonce ++ gcmSeal kb nonce p).take 12 = nonce := by
      rw [← hn]; exact List.take_left _ _
    have hdrop : (nonce ++ gcmSeal kb nonce p).drop 12 = gcmSeal kb nonce p := by
      rw [← hn]; exact List.drop_left _ _
    rw [htake, hdrop, gcmOpen_gcmSeal]

/-- C2: CRUD lifecycle on both engines.  After a successful
`SetSecret k v`, `GetSecret k` returns a secret whose plaintext is `v`;
`GetSecret` of an absent name fails with `SecretNotFound`; after a
successful `DeleteSecret k`, `GetSecret k` fails with `SecretNotFound` and
a second `DeleteSecret k` also fails with `SecretNotFound`. -/
theorem c2_crud_lifecycle :
    (∀ (v v' : AES256Vault) (now : Nat) (k val : String),
        v.SetSecret now k val = some (Except.ok v') →
        v'.GetSecret k = some (Except.ok val)) ∧
    (∀ (v : AES256Vault) (st : AESState) (k : String),
        v.state = some st → mapGet st.secrets k = none →
        v.GetSecret k = some (Except.error VErr.secretNotFound)) ∧
    (∀ (v v' : AES256Vault) (now now2 : Nat) (k : String),
        v.DeleteSecret now k = some (Except.ok v') →
        v'.GetSecret k = some (Except.error VErr.secretNotFound) ∧
        v'.DeleteSecret now2 k = some (Except.error VErr.secretNotFound)) ∧
    (∀ (v v' : AgeVault) (now : Nat) (k val : String),
        v.SetSecret now k val = some (Except.ok v') →
        v'.GetSecret k = some (Except.ok val)) ∧
    (∀ (v : AgeVault) (st : AgeState) (k : String),
        v.state = some st → mapGet st.secrets k = none →
        v.GetSecret k = some (Except.error VErr.secretNotFound)) ∧
    (∀ (v v' : AgeVault) (now now2 : Nat) (k : String),
        v.DeleteSecret now k = some (Except.ok v') →
        v'.GetSecret k = some (Except.error VErr.secretNotFound) ∧
        v'.DeleteSecret now2 k = some (Except.error VErr.secretNotFound)) := by
  refine ⟨?_, ?_, ?_, ?_, ?_, ?_⟩
  · intro v v' now k val h
    obtain ⟨st, _, _, rfl⟩ := aes_set_ok v v' now k val h
    simp [AES256Vault.GetSecret, mapGet_mapSet_self]
  · intro v st k hst hget
    simp [AES256Vault.GetSecret, hst, hget]
  · intro v v' now now2 k h
    obtain ⟨st, _, _, _, rfl⟩ := aes_del_ok v v' now k h
    constructor
    · simp [AES256Vault.GetSecret, mapGet_mapDel_self]
    · simp [AES256Vault.DeleteSecret, mapGet_mapDel_self]
  · intro v v' now k val h
    obtain ⟨st, _, _, rfl⟩ := age_set_ok v v' now k val h
    simp [AgeVault.GetSecret, mapGet_mapSet_self]
  · intro v st k hst hget
    simp [AgeVault.GetSecret, hst, hget]
  · intro v v' now now2 k h
    obtain ⟨st, _, _, _, rfl⟩ := age_del_ok v v' now k h
    constructor
    · simp [AgeVault.GetSecret, mapGet_mapDel_self]
    · simp [AgeVault.DeleteSecret, mapGet_mapDel_self]

/-- Witness for C2 at concrete vaults: a set secret is read back, an
absent secret (also after deletion) yields `SecretNotFound`, and deleting
twice fails the second time, on both engines. -/
theorem c2_crud_lifecycle_witness :
    (AES256Vault.GetSecret ⟨"v", some ⟨⟨1, 2⟩, 1, "v", [("a", "x")]⟩, "k"⟩ "a" =
      some (Except.ok "x")) ∧
    (AES256Vault.GetSecret ⟨"v", some ⟨⟨1, 1⟩, 1, "v", []⟩, "k"⟩ "b" =
      some (Except.error VErr.secretNotFound)) ∧
    (AES256Vault.GetSecret ⟨"v", some ⟨⟨1, 3⟩, 1, "v", []⟩, "k"⟩ "a" =
      some (Except.error VErr.secretNotFound) ∧
     AES256Vault.DeleteSecret ⟨"v", some ⟨⟨1, 3⟩, 1, "v", []⟩, "k"⟩ 4 "a" =
      some (Except.error VErr.secretNotFound)) ∧
    (AgeVault.GetSecret ⟨"v", ["age1r"], some ⟨⟨1, 2⟩, 1, "v", ["age1r"], [("a", "x")]⟩,
        ["age1r"], ["AGE-SECRET-KEY-1Q"]⟩ "a" = some (Except.ok "x")) ∧
    (AgeVault.GetSecret ⟨"v", ["age1r"], some ⟨⟨1, 1⟩, 1, "v", ["age1r"], []⟩,
        ["age1r"], ["AGE-SECRET-KEY-1Q"]⟩ "b" = some (Except.error VErr.secretNotFound)) ∧
    (AgeVault.GetSecret ⟨"v", ["age1r"], some ⟨⟨1, 3⟩, 1, "v", ["age1r"], []⟩,
        ["age1r"], ["AGE-SECRET-KEY-1Q"]⟩ "a" = some (Except.error VErr.secretNotFound) ∧
     AgeVault.DeleteSecret ⟨"v", ["age1r"], some ⟨⟨1, 3⟩, 1, "v", ["age1r"], []⟩,
        ["age1r"], ["AGE-SECRET-KEY-1Q"]⟩ 4 "a" = some (Except.error VErr.secretNotFound)) := by
  refine ⟨?_, ?_, ?_, ?_, ?_, ?_⟩
  · exact c2_crud_lifecycle.1 ⟨"v", some ⟨⟨1, 1⟩, 1, "v", []⟩, "k"⟩ _ 2 "a" "x" rfl
  · exact c2_crud_lifecycle.2.1 ⟨"v", some ⟨⟨1, 1⟩, 1, "v", []⟩, "k"⟩ _ "b" rfl (by decide)
  · exact c2_crud_lifecycle.2.2.1 ⟨"v", some ⟨⟨1, 1⟩, 1, "v", [("a", "x")]⟩, "k"⟩ _ 3 4 "a" rfl
  · exact c2_crud_lifecycle.2.2.2.1
      ⟨"v", ["age1r"], some ⟨⟨1, 1⟩, 1, "v", ["age1r"], []⟩, ["age1r"],
        ["AGE-SECRET-KEY-1Q"]⟩ _ 2 "a" "x" rfl
  · exact c2_crud_lifecycle.2.2.2.2.1
      ⟨"v", ["age1r"], some ⟨⟨1, 1⟩, 1, "v", ["age1r"], []⟩, ["age1r"],
        ["AGE-SECRET-KEY-1Q"]⟩ _ "b" rfl (by decide)
  · exact c2_crud_lifecycle.2.2.2.2.2
      ⟨"v", ["age1r"], some ⟨⟨1, 1⟩, 1, "v", ["age1r"], [("a", "x")]⟩, ["age1r"],
        ["AGE-SECRET-KEY-1Q"]⟩ _ 3 4 "a" rfl

theorem tryKeys_first (data : List Nat) :
    ∀ (ks1 : List (List Nat)) (key : List Nat) (ks2 : List (List Nat)) (pt : List Nat),
      (∀ k ∈ ks1, ∃ e, DecryptValue k data = Except.error e) →
      DecryptValue key data = Except.ok pt →
      tryKeys data (ks1 ++ key :: ks2) = Except.ok (pt, key) := by
  intro ks1
  induction ks1 with
  | nil =>
    intro key ks2 pt _ hok
    simp [tryKeys, hok]
  | cons k0 rest ih =>
    intro key ks2 pt hfail hok
    obtain ⟨e, he⟩ := hfail k0 (by simp)
    simp only [List.cons_append, tryKeys, he]
    exact ih key ks2 pt (fun k hk => hfail k (by simp [hk])) hok

theorem tryKeys_none (data : List Nat) :
    ∀ ks : List (List Nat), (∀ k ∈ ks, ∃ e, DecryptValue k data = Except.error e) →
      tryKeys data ks = Except.error VErr.decryptionFailed := by
  intro ks
  induction ks with
  | nil => intro _; rfl
  | cons k0 rest ih =>
    intro hfail
    obtain ⟨e, he⟩ := hfail k0 (by simp)
    simp only [tryKeys, he]
    exact ih (fun k hk => hfail k (by simp [hk]))

/-- C3: `TryDecrypt` walks the resolved candidate keys in resolution
order: the first key whose `DecryptValue` succeeds is accepted, and its
plaintext is returned together with that key; when every candidate fails,
the result is `DecryptionFailed`. -/
theorem c3_try_decrypt_first_key
    (sources : List KeySource) (env : String → List Nat) (fs : String → Option (List Nat))
    (data : List Nat) (keys : List (List Nat))
    (hres : ResolveKeys sources env fs = Except.ok keys) :
    (∀ (ks1 key ks2 pt : _), keys = ks1 ++ key :: ks2 →
        (∀ k ∈ ks1, ∃ e, DecryptValue k data = Except.error e) →
        DecryptValue key data = Except.ok pt →
        TryDecrypt sources env fs data = Except.ok (pt, key)) ∧
    ((∀ k ∈ keys, ∃ e, DecryptValue k data = Except.error e) →
        TryDecrypt sources env fs data = Except.error VErr.decryptionFailed) := by
  constructor
  · intro ks1 key ks2 pt hsplit hfail hok
    simp only [TryDecrypt, hres, hsplit]
    exact tryKeys_first data ks1 key ks2 pt hfail hok
  · intro hfail
    simp only [TryDecrypt, hres]
    exact tryKeys_none data keys hfail

set_option maxRecDepth 100000 in
/-- Witness for C3: with a bad key resolved before a good one, the good
key decrypts and is reported as the key used; on an undecryptable input
every key fails and the result is `DecryptionFailed`. -/
theorem c3_try_decrypt_first_key_witness :
    TryDecrypt witKeySources witEnvKeys witFsNone witCiphertext =
      Except.ok ([104, 105], EncodeValue (List.replicate 32 0)) ∧
    TryDecrypt witKeySources witEnvKeys witFsNone [] =
      Except.error VErr.decryptionFailed := by
  constructor
  · exact (c3_try_decrypt_first_key witKeySources witEnvKeys witFsNone witCiphertext
      [EncodeValue (List.replicate 32 1), EncodeValue (List.replicate 32 0)] rfl).1
      [EncodeValue (List.replicate 32 1)] (EncodeValue (List.replicate 32 0)) [] [104, 105]
      rfl
      (by
        intro k hk
        fin_cases hk
        exact ⟨VErr.decryptionFailed, rfl⟩)
      rfl
  · exact (c3_try_decrypt_first_key witKeySources witEnvKeys witFsNone []
      [EncodeValue (List.replicate 32 1), EncodeValue (List.replicate 32 0)] rfl).2
      (by
        intro k hk
        fin_cases hk
        · exact ⟨VErr.decryptionFailed, rfl⟩
        · exact ⟨VErr.decryptionFailed, rfl⟩)

/-- Counterexample for C7: a file source whose file is unreadable is fatal
to identity resolution, even though a later env source holds a valid
identity — the source is not skipped and the error is the file error, not
`NoAccess`. -/
theorem c7_counterexample :
    ResolveIdentities [⟨SourceType.file, "", "p"⟩, ⟨SourceType.env, "E", ""⟩]
      (fun n => if n = "E" then "AGE-SECRET-KEY-1XYZ" else "") (fun _ => none) =
      Except.error (VErr.fileReadError "p") ∧
    identityFromEnvironment (fun n => if n = "E" then "AGE-SECRET-KEY-1XYZ" else "") "E" =
      some "AGE-SECRET-KEY-1XYZ" ∧
    VErr.fileReadError "p" ≠ VErr.noAccess := by
  refine ⟨rfl, rfl, by simp⟩

/-- C7 as amended: env sources that are unset or unparseable are skipped;
file sources with an empty path, an unreadable file or an unparseable
identity abort resolution with that error (not skipped); `NoAccess` is
returned exactly when the loop finishes with no identity resolved. -/
theorem c7_amended_identity_resolution
    (env : String → String) (fs : String → Option String) :
    (∀ (s : IdentitySource) (rest : List IdentitySource), s.type = SourceType.env →
        identityFromEnvironment env s.name = none →
        collectIdentities env fs (s :: rest) = collectIdentities env fs rest) ∧
    (∀ (s : IdentitySource) (rest : List IdentitySource) (e : VErr), s.type = SourceType.file →
        identityFromFile fs s.path = Except.error e →
        collectIdentities env fs (s :: rest) = Except.error e) ∧
    (∀ sources : List IdentitySource,
        collectIdentities env fs (defaultIdentitySources sources) = Except.ok [] →
        ResolveIdentities sources env fs = Except.error VErr.noAccess) ∧
    (∀ (sources : List IdentitySource) (ids : List String),
        collectIdentities env fs (defaultIdentitySources sources) = Except.ok ids →
        ids ≠ [] → ResolveIdentities sources env fs = Except.ok ids) := by
  refine ⟨?_, ?_, ?_, ?_⟩
  · intro s rest htype henv
    obtain ⟨t, n, p⟩ := s
    cases htype
    simp [collectIdentities, henv]
  · intro s rest e htype hfile
    obtain ⟨t, n, p⟩ := s
    cases htype
    simp [collectIdentities, hfile]
  · intro sources hcol
    simp [ResolveIdentities, hcol]
  · intro sources ids hcol hne
    simp [ResolveIdentities, hcol, hne]

/-- Witness for C7 (amended): an unset env source is skipped, a failing
file source aborts, an all-empty run yields `NoAccess`, and a resolved
identity list is returned. -/
theorem c7_amended_identity_resolution_witness :
    collectIdentities (fun _ => "") (fun _ => none)
      [⟨SourceType.env, "A", ""⟩, ⟨SourceType.env, "B", ""⟩] =
      collectIdentities (fun _ => "") (fun _ => none) [⟨SourceType.env, "B", ""⟩] ∧
    collectIdentities (fun _ => "") (fun _ => none)
      [⟨SourceType.file, "", "p"⟩] = Except.error (VErr.fileReadError "p") ∧
    ResolveIdentities [⟨SourceType.env, "A", ""⟩] (fun _ => "") (fun _ => none) =
      Except.error VErr.noAccess ∧
    ResolveIdentities [⟨SourceType.env, "A", ""⟩]
      (fun _ => "AGE-SECRET-KEY-1XYZ") (fun _ => none) =
      Except.ok ["AGE-SECRET-KEY-1XYZ"] := by
  refine ⟨?_, ?_, ?_, ?_⟩
  · exact (c7_amended_identity_resolution (fun _ => "") (fun _ => none)).1
      ⟨SourceType.env, "A", ""⟩ [⟨SourceType.env, "B", ""⟩] rfl rfl
  · exact (c7_amended_identity_resolution (fun _ => "") (fun _ => none)).2.1
      ⟨SourceType.file, "", "p"⟩ [] (VErr.fileReadError "p") rfl rfl
  · exact (c7_amended_identity_resolution (fun _ => "") (fun _ => none)).2.2.1
      [⟨SourceType.env, "A", ""⟩] rfl
  · exact (c7_amended_identity_resolution (fun _ => "AGE-SECRET-KEY-1XYZ")
      (fun _ => none)).2.2.2 [⟨SourceType.env, "A", ""⟩] ["AGE-SECRET-KEY-1XYZ"] rfl
      (by simp)

theorem removeFirst_length (l : List String) (x : String) (h : x ∈ l) :
    (removeFirst l x).length + 1 = l.length := by
  induction l with
  | nil => simp at h
  | cons y rest ih =>
    by_cases hy : y = x
    · simp [removeFirst, hy]
    · have hx : x ∈ rest := by
        rcases List.mem_cons.mp h with h1 | h1
        · exact absurd h1.symm hy
        · exact h1
      simp [removeFirst, hy, ih hx]

theorem addRecipientToState_ok (st st' : AgeState) (pk : String)
    (h : AgeVault.addRecipientToState st pk = Except.ok st') :
    st'.metadata = st.metadata ∧ st'.secrets = st.secrets ∧
      (st'.recipients = st.recipients ∨ st'.recipients = st.recipients ++ [pk]) := by
  simp only [AgeVault.addRecipientToState] at h
  split at h
  · simp at h
  · split at h
    · obtain rfl : st = st' := by simpa using h
      exact ⟨rfl, rfl, Or.inl rfl⟩
    · obtain rfl : ({ st with recipients := st.recipients ++ [pk] } : AgeState) = st' := by
        simpa using h
      exact ⟨rfl, rfl, Or.inr rfl⟩

theorem addRecipientToState_dup (st st' : AgeState) (pk : String) (hmem : pk ∈ st.recipients)
    (h : AgeVault.addRecipientToState st pk = Except.ok st') : st' = st := by
  simp only [AgeVault.addRecipientToState] at h
  split at h
  · simp at h
  · rw [if_pos (by simpa using hmem)] at h
    exact (by simpa using h : st = st').symm

theorem parseRecipientsList_eq (rs : List String) :
    parseRecipientsList rs = Except.ok rs ∨
      parseRecipientsList rs = Except.error VErr.invalidRecipient := by
  simp only [parseRecipientsList]
  split <;> simp

theorem age_add_ok (v v' : AgeVault) (now : Nat) (pk : String)
    (h : v.AddRecipient now pk = some (Except.ok v')) :
    ∃ st st', v.state = some st ∧ AgeVault.addRecipientToState st pk = Except.ok st' ∧
      st'.recipients ≠ [] ∧
      v' = { v with
        state := some { st' with metadata := { st'.metadata with lastModified := now } },
        recipients := st'.recipients } := by
  cases hst : v.state with
  | none => simp [AgeVault.AddRecipient, hst] at h
  | some st =>
    simp only [AgeVault.AddRecipient, hst] at h
    cases hadd : AgeVault.addRecipientToState st pk with
    | error e => simp [hadd] at h
    | ok st' =>
      refine ⟨st, st', rfl, hadd, ?_⟩
      simp only [hadd] at h
      cases hp : parseRecipientsList st'.recipients with
      | error e => simp [hp] at h
      | ok recs =>
        have hrecs : recs = st'.recipients := by
          simp only [parseRecipientsList] at hp
          split at hp
          · exact (Except.ok.inj hp).symm
          · simp at hp
        subst hrecs
        simp only [hp, AgeVault.save] at h
        by_cases hemp : st'.recipients.isEmpty <;> simp [hemp] at h
        exact ⟨by simpa using hemp, h.symm⟩

theorem age_remove_ok (v v' : AgeVault) (now : Nat) (pk : String)
    (h : v.RemoveRecipient now pk = some (Except.ok v')) :
    ∃ st, v.state = some st ∧ 2 ≤ st.recipients.length ∧ pk ∈ st.recipients ∧
      v' = { v with
        state := some { st with
          recipients := removeFirst st.recipients pk,
          metadata := { st.metadata with lastModified := now } },
        recipients := removeFirst st.recipients pk } := by
  cases hst : v.state with
  | none => simp [AgeVault.RemoveRecipient, hst] at h
  | some st =>
    simp only [AgeVault.RemoveRecipient, hst] at h
    by_cases hlen : st.recipients.length ≤ 1
    · simp [hlen] at h
    · by_cases hm : pk ∈ st.recipients
      · rcases parseRecipientsList_eq (removeFirst st.recipients pk) with hp | hp
        · simp only [AgeVault.save] at h
          simp [hlen, hm, hp] at h
          by_cases hemp : removeFirst st.recipients pk = [] <;> simp [hemp] at h
          exact ⟨st, rfl, by omega, hm, h.symm⟩
        · simp [hlen, hm, hp] at h
      · simp [hlen, hm] at h

/-- C10: the last-recipient guard of `RemoveRecipient` is evaluated before
the membership check — whenever the recipient list has length at most one
the call fails with the last-recipient error for every argument (present
or not), and a `RecipientNotFound` outcome implies at least two
recipients were present with the argument absent.  The no-change part is
by construction: error branches return no new vault value. -/
theorem c10_last_recipient_guard_first :
    (∀ (v : AgeVault) (st : AgeState) (now : Nat) (pk : String),
        v.state = some st → st.recipients.length ≤ 1 →
        v.RemoveRecipient now pk = some (Except.error VErr.lastRecipient)) ∧
    (∀ (v : AgeVault) (now : Nat) (pk : String),
        v.RemoveRecipient now pk = some (Except.error VErr.recipientNotFound) →
        ∃ st, v.state = some st ∧ 2 ≤ st.recipients.length ∧ pk ∉ st.recipients) := by
  constructor
  · intro v st now pk hst hlen
    simp [AgeVault.RemoveRecipient, hst, hlen]
  · intro v now pk h
    cases hst : v.state with
    | none => simp [AgeVault.RemoveRecipient, hst] at h
    | some st =>
      refine ⟨st, rfl, ?_⟩
      simp only [AgeVault.RemoveRecipient, hst] at h
      by_cases hlen : st.recipients.length ≤ 1
      · simp [hlen] at h
      · by_cases hm : pk ∈ st.recipients
        · exfalso
          rcases parseRecipientsList_eq (removeFirst st.recipients pk) with hp | hp
          · simp only [AgeVault.save] at h
            simp [hlen, hm, hp] at h
            by_cases hemp : removeFirst st.recipients pk = [] <;> simp [hemp] at h
          · simp [hlen, hm, hp] at h
        · exact ⟨by omega, hm⟩

/-- Witness for C10: with a single recipient, removing an absent key
yields the last-recipient error; with two recipients, removing an absent
key yields `RecipientNotFound` and implies at least two were present. -/
theorem c10_last_recipient_guard_first_witness :
    AgeVault.RemoveRecipient
      ⟨"v", ["age1a"], some ⟨⟨1, 1⟩, 1, "v", ["age1a"], []⟩, ["age1a"], []⟩ 2 "age1b" =
      some (Except.error VErr.lastRecipient) ∧
    (∃ st, (⟨"v", ["age1a", "age1b"], some ⟨⟨1, 1⟩, 1, "v", ["age1a", "age1b"], []⟩,
        ["age1a", "age1b"], []⟩ : AgeVault).state = some st ∧
      2 ≤ st.recipients.length ∧ "age1c" ∉ st.recipients) := by
  constructor
  · exact c10_last_recipient_guard_first.1
      ⟨"v", ["age1a"], some ⟨⟨1, 1⟩, 1, "v", ["age1a"], []⟩, ["age1a"], []⟩
      ⟨⟨1, 1⟩, 1, "v", ["age1a"], []⟩ 2 "age1b" rfl (by decide)
  · exact c10_last_recipient_guard_first.2
      ⟨"v", ["age1a", "age1b"], some ⟨⟨1, 1⟩, 1, "v", ["age1a", "age1b"], []⟩,
        ["age1a", "age1b"], []⟩ 2 "age1c" rfl

/-- Counterexample for C6: with a single recipient, `RemoveRecipient` of
an *absent* key fails with the last-recipient error, not with
`RecipientNotFound` as the claim states. -/
theorem c6_counterexample :
    AgeVault.RemoveRecipient
      ⟨"v", ["age1a"], some ⟨⟨1, 1⟩, 1, "v", ["age1a"], []⟩, ["age1a"], []⟩ 2 "age1zzz" =
      some (Except.error VErr.lastRecipient) ∧
    VErr.lastRecipient ≠ VErr.recipientNotFound := ⟨rfl, by simp⟩

/-- C6 as amended: `AddRecipient` of a present key leaves the recipient
list unchanged; `RemoveRecipient` fails with `RecipientNotFound` only when
the key is absent *and* at least two recipients are present, and fails
with the last-recipient error whenever at most one recipient remains
(regardless of the argument); no successful mutation leaves the recipient
list empty. -/
theorem c6_amended_recipient_lifecycle :
    (∀ (v v' : AgeVault) (st : AgeState) (now : Nat) (pk : String),
        v.state = some st → pk ∈ st.recipients →
        v.AddRecipient now pk = some (Except.ok v') →
        ∃ st', v'.state = some st' ∧ st'.recipients = st.recipients) ∧
    (∀ (v : AgeVault) (st : AgeState) (now : Nat) (pk : String),
        v.state = some st → 2 ≤ st.recipients.length → pk ∉ st.recipients →
        v.RemoveRecipient now pk = some (Except.error VErr.recipientNotFound)) ∧
    (∀ (v : AgeVault) (st : AgeState) (now : Nat) (pk : String),
        v.state = some st → st.recipients.length ≤ 1 →
        v.RemoveRecipient now pk = some (Except.error VErr.lastRecipient)) ∧
    (∀ (v v' : AgeVault) (now : Nat) (k val : String),
        v.SetSecret now k val = some (Except.ok v') →
        ∀ st', v'.state = some st' →
        ∃ st, v.state = some st ∧ st'.recipients = st.recipients) ∧
    (∀ (v v' : AgeVault) (now : Nat) (k : String),
        v.DeleteSecret now k = some (Except.ok v') →
        ∀ st', v'.state = some st' →
        ∃ st, v.state = some st ∧ st'.recipients = st.recipients) ∧
    (∀ (v v' : AgeVault) (now : Nat) (pk : String),
        v.AddRecipient now pk = some (Except.ok v') →
        ∀ st', v'.state = some st' → st'.recipients ≠ []) ∧
    (∀ (v v' : AgeVault) (now : Nat) (pk : String),
        v.RemoveRecipient now pk = some (Except.ok v') →
        ∀ st', v'.state = some st' → st'.recipients ≠ []) := by
  refine ⟨?_, ?_, ?_, ?_, ?_, ?_, ?_⟩
  · intro v v' st now pk hst hmem h
    obtain ⟨st0, st', hst0, hadd, _, rfl⟩ := age_add_ok v v' now pk h
    rw [hst] at hst0
    obtain rfl : st = st0 := by simpa using hst0
    have := addRecipientToState_dup st st' pk hmem hadd
    subst this
    exact ⟨_, rfl, rfl⟩
  · intro v st now pk hst hlen hmem
    have hlen' : ¬ st.recipients.length ≤ 1 := by omega
    simp [AgeVault.RemoveRecipient, hst, hlen', hmem]
  · intro v st now pk hst hlen
    simp [AgeVault.RemoveRecipient, hst, hlen]
  · intro v v' now k val h st' hst'
    obtain ⟨st, hst, _, rfl⟩ := age_set_ok v v' now k val h
    obtain rfl : _ = st' := by simpa using hst'
    exact ⟨st, hst, rfl⟩
  · intro v v' now k h st' hst'
    obtain ⟨st, hst, _, _, rfl⟩ := age_del_ok v v' now k h
    obtain rfl : _ = st' := by simpa using hst'
    exact ⟨st, hst, rfl⟩
  · intro v v' now pk h st' hst'
    obtain ⟨st0, st1, _, _, hne, rfl⟩ := age_add_ok v v' now pk h
    obtain rfl : _ = st' := by simpa using hst'
    simpa using hne
  · intro v v' now pk h st' hst'
    obtain ⟨st, _, hlen, hmem, rfl⟩ := age_remove_ok v v' now pk h
    obtain rfl : _ = st' := by simpa using hst'
    intro hnil
    simp only [] at hnil
    have hrl := removeFirst_length st.recipients pk hmem
    have : (removeFirst st.recipients pk) = [] := by simpa using hnil
    rw [this] at hrl
    simp at hrl
    omega

/-- Witness for C6 (amended) at concrete vaults: a duplicate add leaves
the single-recipient list unchanged, removal of an absent key among two
recipients yields `RecipientNotFound`, and removal with one recipient
yields the last-recipient error. -/
theorem c6_amended_recipient_lifecycle_witness :
    (∃ st', (⟨"v", ["age1a"], some ⟨⟨1, 2⟩, 1, "v", ["age1a"], []⟩, ["age1a"],
        []⟩ : AgeVault).state = some st' ∧ st'.recipients = ["age1a"]) ∧
    AgeVault.RemoveRecipient
      ⟨"v", ["age1a", "age1b"], some ⟨⟨1, 1⟩, 1, "v", ["age1a", "age1b"], []⟩,
        ["age1a", "age1b"], []⟩ 2 "age1c" =
      some (Except.error VErr.recipientNotFound) ∧
    AgeVault.RemoveRecipient
      ⟨"v", ["age1a"], some ⟨⟨1, 1⟩, 1, "v", ["age1a"], []⟩, ["age1a"], []⟩ 2 "age1a" =
      some (Except.error VErr.lastRecipient) := by
  refine ⟨?_, ?_, ?_⟩
  · exact c6_amended_recipient_lifecycle.1
      ⟨"v", ["age1a"], some ⟨⟨1, 1⟩, 1, "v", ["age1a"], []⟩, ["age1a"], []⟩
      ⟨"v", ["age1a"], some ⟨⟨1, 2⟩, 1, "v", ["age1a"], []⟩, ["age1a"], []⟩
      ⟨⟨1, 1⟩, 1, "v", ["age1a"], []⟩ 2 "age1a" rfl (by decide) rfl
  · exact c6_amended_recipient_lifecycle.2.1
      ⟨"v", ["age1a", "age1b"], some ⟨⟨1, 1⟩, 1, "v", ["age1a", "age1b"], []⟩,
        ["age1a", "age1b"], []⟩
      ⟨⟨1, 1⟩, 1, "v", ["age1a", "age1b"], []⟩ 2 "age1c" rfl (by decide) (by decide)
  · exact c6_amended_recipient_lifecycle.2.2.1
      ⟨"v", ["age1a"], some ⟨⟨1, 1⟩, 1, "v", ["age1a"], []⟩, ["age1a"], []⟩
      ⟨⟨1, 1⟩, 1, "v", ["age1a"], []⟩ 2 "age1a" rfl (by decide)

set_option maxRecDepth 100000 in
/-- Witness for C1 at a concrete 32-byte key, 12-byte nonce and two-byte
plaintext. -/
theorem c1_encrypt_decrypt_roundtrip_witness :
    ∃ ct, EncryptValue (EncodeValue (List.replicate 32 0)) (List.replicate 12 0) [104, 105] =
        Except.ok ct ∧
      DecryptValue (EncodeValue (List.replicate 32 0)) ct = Except.ok [104, 105] :=
  c1_encrypt_decrypt_roundtrip (List.replicate 32 0) [104, 105] (List.replicate 12 0)
    (by decide) (by decide) (by decide) (by decide) (by decide) (by decide)

/-- Counterexample for C4: on the symmetric engine, `GetSecret` of a name
violating the pattern (here `"bad key!"`, which `ValidateSecretKey`
rejects) fails with `SecretNotFound`, not with `InvalidKey` — only `Set`
validates the name. -/
theorem c4_counterexample :
    AES256Vault.GetSecret ⟨"v", some ⟨⟨1, 1⟩, 1, "v", []⟩, "k"⟩ "bad key!" =
      some (Except.error VErr.secretNotFound) ∧
    ValidateSecretKey "bad key!" = Except.error VErr.invalidKey ∧
    VErr.secretNotFound ≠ VErr.invalidKey := ⟨rfl, rfl, by simp⟩

/-- C4 as amended: `ValidateSecretKey` accepts exactly the non-empty names
matching `^[a-zA-Z0-9-_.]+$`; on both engines only `SetSecret` performs
this validation (failing with `InvalidKey`), while `GetSecret`,
`DeleteSecret` and `HasSecret` never validate: for any name, valid or not,
an absent key yields `SecretNotFound` (or `false` for `Has`). -/
theorem c4_amended_validation_only_on_set :
    (∀ s : String, s ≠ "" → s.data.all isValidKeyChar → ValidateSecretKey s = Except.ok ()) ∧
    (∀ s : String, s = "" ∨ s.data.all isValidKeyChar = false →
        ValidateSecretKey s = Except.error VErr.invalidKey) ∧
    (∀ (v : AES256Vault) (now : Nat) (k val : String) (e : VErr),
        ValidateSecretKey k = Except.error e →
        v.SetSecret now k val = some (Except.error e)) ∧
    (∀ (v : AgeVault) (now : Nat) (k val : String) (e : VErr),
        ValidateSecretKey k = Except.error e →
        v.SetSecret now k val = some (Except.error e)) ∧
    (∀ (v : AES256Vault) (st : AESState) (now : Nat) (k : String),
        v.state = some st → mapGet st.secrets k = none →
        v.GetSecret k = some (Except.error VErr.secretNotFound) ∧
        v.DeleteSecret now k = some (Except.error VErr.secretNotFound) ∧
        v.HasSecret k = some (Except.ok false)) ∧
    (∀ (v : AgeVault) (st : AgeState) (now : Nat) (k : String),
        v.state = some st → mapGet st.secrets k = none →
        v.GetSecret k = some (Except.error VErr.secretNotFound) ∧
        v.DeleteSecret now k = some (Except.error VErr.secretNotFound) ∧
        v.HasSecret k = some (Except.ok false)) := by
  refine ⟨?_, ?_, ?_, ?_, ?_, ?_⟩
  · intro s hne hall
    simp [ValidateSecretKey, hne, hall]
  · intro s h
    rcases h with h | h
    · simp [ValidateSecretKey, h]
    · by_cases hne : s = "" <;> simp [ValidateSecretKey, hne, h]
  · intro v now k val e hval
    simp [AES256Vault.SetSecret, hval]
  · intro v now k val e hval
    simp [AgeVault.SetSecret, hval]
  · intro v st now k hst hget
    exact ⟨by simp [AES256Vault.GetSecret, hst, hget],
      by simp [AES256Vault.DeleteSecret, hst, hget],
      by simp [AES256Vault.HasSecret, hst, hget]⟩
  · intro v st now k hst hget
    exact ⟨by simp [AgeVault.GetSecret, hst, hget],
      by simp [AgeVault.DeleteSecret, hst, hget],
      by simp [AgeVault.HasSecret, hst, hget]⟩

/-- Witness for C4 (amended): a well-formed name passes validation, the
empty and ill-formed names fail it, `SetSecret` of an ill-formed name
fails with `InvalidKey` on both engines, and lookups of an absent
ill-formed name yield `SecretNotFound` / `false`. -/
theorem c4_amended_validation_only_on_set_witness :
    ValidateSecretKey "a.b-c_9" = Except.ok () ∧
    ValidateSecretKey "" = Except.error VErr.invalidKey ∧
    ValidateSecretKey "bad key!" = Except.error VErr.invalidKey ∧
    AES256Vault.SetSecret ⟨"v", some ⟨⟨1, 1⟩, 1, "v", []⟩, "k"⟩ 2 "bad key!" "x" =
      some (Except.error VErr.invalidKey) ∧
    AgeVault.SetSecret ⟨"v", ["age1a"], some ⟨⟨1, 1⟩, 1, "v", ["age1a"], []⟩, ["age1a"], []⟩
      2 "bad key!" "x" = some (Except.error VErr.invalidKey) ∧
    (AES256Vault.GetSecret ⟨"v", some ⟨⟨1, 1⟩, 1, "v", []⟩, "k"⟩ "bad key!" =
      some (Except.error VErr.secretNotFound) ∧
     AES256Vault.DeleteSecret ⟨"v", some ⟨⟨1, 1⟩, 1, "v", []⟩, "k"⟩ 2 "bad key!" =
      some (Except.error VErr.secretNotFound) ∧
     AES256Vault.HasSecret ⟨"v", some ⟨⟨1, 1⟩, 1, "v", []⟩, "k"⟩ "bad key!" =
      some (Except.ok false)) := by
  refine ⟨?_, ?_, ?_, ?_, ?_, ?_⟩
  · exact c4_amended_validation_only_on_set.1 "a.b-c_9" (by decide) (by decide)
  · exact c4_amended_validation_only_on_set.2.1 "" (Or.inl rfl)
  · exact c4_amended_validation_only_on_set.2.1 "bad key!" (Or.inr (by decide))
  · exact c4_amended_validation_only_on_set.2.2.1 ⟨"v", some ⟨⟨1, 1⟩, 1, "v", []⟩, "k"⟩
      2 "bad key!" "x" VErr.invalidKey rfl
  · exact c4_amended_validation_only_on_set.2.2.2.1
      ⟨"v", ["age1a"], some ⟨⟨1, 1⟩, 1, "v", ["age1a"], []⟩, ["age1a"], []⟩
      2 "bad key!" "x" VErr.invalidKey rfl
  · exact c4_amended_validation_only_on_set.2.2.2.2.1
      ⟨"v", some ⟨⟨1, 1⟩, 1, "v", []⟩, "k"⟩ ⟨⟨1, 1⟩, 1, "v", []⟩ 2 "bad key!" rfl rfl

/-- Counterexample for C5: a decrypted state carrying version 999 — not
the current on-disk schema version 1 — is accepted by `load` on the
symmetric engine rather than rejected as fatal: the version field is never
validated. -/
theorem c5_counterexample :
    AES256Vault.load "v" ["k"] (some ⟨"k", ⟨⟨1, 1⟩, 999, "v", []⟩⟩) =
      Except.ok ⟨"v", some ⟨⟨1, 1⟩, 999, "v", []⟩, "k"⟩ ∧
    (999 : Int) ≠ 1 := ⟨rfl, by decide⟩

/-- C5 as amended: when an existing non-empty backing file decrypts, both
engines accept the parsed state whatever its `version` field holds — no
version validation happens on load (the version is only written at
init). -/
theorem c5_amended_load_ignores_version :
    (∀ (id : String) (keys : List String) (f : EncAESFile), keys.contains f.key →
        AES256Vault.load id keys (some f) = Except.ok ⟨id, some f.payload, f.key⟩) ∧
    (∀ (id : String) (cfg ids : List String) (f : EncAgeFile),
        ageCanDecrypt ids f.recipients →
        f.payload.recipients.all parseRecipientOk →
        AgeVault.load id cfg ids (some f) =
          Except.ok ⟨id, cfg, some f.payload, f.payload.recipients, ids⟩) := by
  constructor
  · intro id keys f hc
    have hm : f.key ∈ keys := by simpa using hc
    have hne : keys ≠ [] := by
      rintro rfl
      simp at hm
    simp [AES256Vault.load, hne, hm]
  · intro id cfg ids f hdec hall
    simp [AgeVault.load, hdec, parseRecipientsList, hall]

/-- Witness for C5 (amended): states with version 999 load fine on both
engines. -/
theorem c5_amended_load_ignores_version_witness :
    AES256Vault.load "v" ["k"] (some ⟨"k", ⟨⟨1, 1⟩, 999, "v", []⟩⟩) =
      Except.ok ⟨"v", some ⟨⟨1, 1⟩, 999, "v", []⟩, "k"⟩ ∧
    AgeVault.load "v" [] ["AGE-SECRET-KEY-1QXYZ"]
      (some ⟨[agePubOf "AGE-SECRET-KEY-1QXYZ"], ⟨⟨1, 1⟩, 999, "v", ["age1r"], []⟩⟩) =
      Except.ok ⟨"v", [], some ⟨⟨1, 1⟩, 999, "v", ["age1r"], []⟩, ["age1r"],
        ["AGE-SECRET-KEY-1QXYZ"]⟩ := by
  constructor
  · exact c5_amended_load_ignores_version.1 "v" ["k"] ⟨"k", ⟨⟨1, 1⟩, 999, "v", []⟩⟩
      (by decide)
  · exact c5_amended_load_ignores_version.2 "v" [] ["AGE-SECRET-KEY-1QXYZ"]
      ⟨[agePubOf "AGE-SECRET-KEY-1QXYZ"], ⟨⟨1, 1⟩, 999, "v", ["age1r"], []⟩⟩
      (by decide) (by decide)

/-- Counterexample for C9: on a closed vault, `SetSecret` of an invalid
name (the empty string) returns the typed `InvalidKey` error instead of
dereferencing the nil state — name validation runs before the state is
touched, so not *every* key leads to the nil dereference. -/
theorem c9_counterexample :
    (AES256Vault.Close ⟨"v", some ⟨⟨1, 1⟩, 1, "v", []⟩, "k"⟩).1.SetSecret 2 "" "x" =
      some (Except.error VErr.invalidKey) ∧
    (some (Except.error VErr.invalidKey) : EngineResult AES256Vault) ≠ none :=
  ⟨rfl, by simp⟩

/-- C9 as amended: `Close` clears the state to nil on both engines, and no
subsequent operation is guarded against it: `GetSecret`, `DeleteSecret`,
`HasSecret` and `ListSecrets` dereference the nil state (modelled as
`none`, the panic) for every key, and `SetSecret` does so for every name
that passes validation; for a name that fails validation `SetSecret`
returns the typed `InvalidKey` error before touching the state.  No
operation returns a typed vault-closed error. -/
theorem c9_amended_closed_vault_panics :
    (∀ (v : AES256Vault) (k : String), (v.Close).1.GetSecret k = none) ∧
    (∀ (v : AES256Vault) (now : Nat) (k : String), (v.Close).1.DeleteSecret now k = none) ∧
    (∀ (v : AES256Vault) (k : String), (v.Close).1.HasSecret k = none) ∧
    (∀ v : AES256Vault, (v.Close).1.ListSecrets = none) ∧
    (∀ (v : AES256Vault) (now : Nat) (k val : String), ValidateSecretKey k = Except.ok () →
        (v.Close).1.SetSecret now k val = none) ∧
    (∀ (v : AES256Vault) (now : Nat) (k val : String) (e : VErr),
        ValidateSecretKey k = Except.error e →
        (v.Close).1.SetSecret now k val = some (Except.error e)) ∧
    (∀ (v : AgeVault) (k : String), (v.Close).1.GetSecret k = none) ∧
    (∀ (v : AgeVault) (now : Nat) (k : String), (v.Close).1.DeleteSecret now k = none) ∧
    (∀ (v : AgeVault) (k : String), (v.Close).1.HasSecret k = none) ∧
    (∀ v : AgeVault, (v.Close).1.ListSecrets = none) ∧
    (∀ (v : AgeVault) (now : Nat) (k val : String), ValidateSecretKey k = Except.ok () →
        (v.Close).1.SetSecret now k val = none) ∧
    (∀ (v : AgeVault) (now : Nat) (k val : String) (e : VErr),
        ValidateSecretKey k = Except.error e →
        (v.Close).1.SetSecret now k val = some (Except.error e)) := by
  refine ⟨?_, ?_, ?_, ?_, ?_, ?_, ?_, ?_, ?_, ?_, ?_, ?_⟩
  · intro v k; rfl
  · intro v now k; rfl
  · intro v k; rfl
  · intro v; rfl
  · intro v now k val hval
    simp [AES256Vault.SetSecret, AES256Vault.Close, hval]
  · intro v now k val e hval
    simp [AES256Vault.SetSecret, AES256Vault.Close, hval]
  · intro v k; rfl
  · intro v now k; rfl
  · intro v k; rfl
  · intro v; rfl
  · intro v now k val hval
    simp [AgeVault.SetSecret, AgeVault.Close, hval]
  · intro v now k val e hval
    simp [AgeVault.SetSecret, AgeVault.Close, hval]

/-- Witness for C9 (amended): on a concrete closed symmetric vault every
lookup panics, a valid-name `SetSecret` panics, and an invalid-name
`SetSecret` returns `InvalidKey`. -/
theorem c9_amended_closed_vault_panics_witness :
    (AES256Vault.Close ⟨"v", some ⟨⟨1, 1⟩, 1, "v", [("a", "x")]⟩, "k"⟩).1.GetSecret "a" =
      none ∧
    (AES256Vault.Close ⟨"v", some ⟨⟨1, 1⟩, 1, "v", [("a", "x")]⟩, "k"⟩).1.SetSecret 2 "a" "y" =
      none ∧
    (AgeVault.Close ⟨"v", ["age1a"], some ⟨⟨1, 1⟩, 1, "v", ["age1a"], [("a", "x")]⟩,
        ["age1a"], []⟩).1.SetSecret 2 "" "y" = some (Except.error VErr.invalidKey) := by
  refine ⟨?_, ?_, ?_⟩
  · exact c9_amended_closed_vault_panics.1 ⟨"v", some ⟨⟨1, 1⟩, 1, "v", [("a", "x")]⟩, "k"⟩ "a"
  · exact c9_amended_closed_vault_panics.2.2.2.2.1
      ⟨"v", some ⟨⟨1, 1⟩, 1, "v", [("a", "x")]⟩, "k"⟩ 2 "a" "y" rfl
  · exact c9_amended_closed_vault_panics.2.2.2.2.2.2.2.2.2.2.2
      ⟨"v", ["age1a"], some ⟨⟨1, 1⟩, 1, "v", ["age1a"], [("a", "x")]⟩, ["age1a"], []⟩
      2 "" "y" VErr.invalidKey rfl

theorem addRecipientsToState_metadata :
    ∀ (rs : List String) (st st' : AgeState), addRecipientsToState st rs = Except.ok st' →
      st'.metadata = st.metadata := by
  intro rs
  induction rs with
  | nil =>
    intro st st' h
    obtain rfl : st = st' := by simpa [addRecipientsToState] using h
    rfl
  | cons r rest ih =>
    intro st st' h
    simp only [addRecipientsToState] at h
    cases hadd : AgeVault.addRecipientToState st r with
    | error e => simp [hadd] at h
    | ok st1 =>
      simp only [hadd] at h
      rw [ih st1 st' h, (addRecipientToState_ok st st1 r hadd).1]

/-- C8: `metadata.created` is fixed at vault creation (`init` stamps both
timestamps with the creation instant) and is preserved by every later
mutation, while every successful state mutation — `SetSecret`,
`DeleteSecret`, `AddRecipient`, `RemoveRecipient` — stamps
`metadata.last_modified` with the operation's `now`.  Read-only
operations (`GetSecret`, `HasSecret`, `ListSecrets`, `ListRecipients`,
`Metadata`) are embedded as pure observers returning no vault, so they
change neither field by construction. -/
theorem c8_metadata_lifecycle :
    (∀ (id : String) (keys : List String) (now : Nat) (v' : AES256Vault),
        AES256Vault.init id keys now = Except.ok v' →
        ∃ st, v'.state = some st ∧ st.metadata.created = now ∧
          st.metadata.lastModified = now) ∧
    (∀ (v v' : AES256Vault) (now : Nat) (k val : String),
        v.SetSecret now k val = some (Except.ok v') →
        ∃ st st', v.state = some st ∧ v'.state = some st' ∧
          st'.metadata.created = st.metadata.created ∧ st'.metadata.lastModified = now) ∧
    (∀ (v v' : AES256Vault) (now : Nat) (k : String),
        v.DeleteSecret now k = some (Except.ok v') →
        ∃ st st', v.state = some st ∧ v'.state = some st' ∧
          st'.metadata.created = st.metadata.created ∧ st'.metadata.lastModified = now) ∧
    (∀ (id : String) (cfg ids : List String) (now : Nat) (v' : AgeVault),
        AgeVault.init id cfg ids now = Except.ok v' →
        ∃ st, v'.state = some st ∧ st.metadata.created = now ∧
          st.metadata.lastModified = now) ∧
    (∀ (v v' : AgeVault) (now : Nat) (k val : String),
        v.SetSecret now k val = some (Except.ok v') →
        ∃ st st', v.state = some st ∧ v'.state = some st' ∧
          st'.metadata.created = st.metadata.created ∧ st'.metadata.lastModified = now) ∧
    (∀ (v v' : AgeVault) (now : Nat) (k : String),
        v.DeleteSecret now k = some (Except.ok v') →
        ∃ st st', v.state = some st ∧ v'.state = some st' ∧
          st'.metadata.created = st.metadata.created ∧ st'.metadata.lastModified = now) ∧
    (∀ (v v' : AgeVault) (now : Nat) (pk : String),
        v.AddRecipient now pk = some (Except.ok v') →
        ∃ st st', v.state = some st ∧ v'.state = some st' ∧
          st'.metadata.created = st.metadata.created ∧ st'.metadata.lastModified = now) ∧
    (∀ (v v' : AgeVault) (now : Nat) (pk : String),
        v.RemoveRecipient now pk = some (Except.ok v') →
        ∃ st st', v.state = some st ∧ v'.state = some st' ∧
          st'.metadata.created = st.metadata.created ∧ st'.metadata.lastModified = now) := by
  refine ⟨?_, ?_, ?_, ?_, ?_, ?_, ?_, ?_⟩
  · intro id keys now v' h
    cases keys with
    | nil => simp [AES256Vault.init] at h
    | cons k rest =>
      simp only [AES256Vault.init, AES256Vault.save] at h
      by_cases hk : k = "" <;> simp [hk] at h
      exact ⟨_, by rw [← h], rfl, rfl⟩
  · intro v v' now k val h
    obtain ⟨st, hst, _, rfl⟩ := aes_set_ok v v' now k val h
    exact ⟨st, _, hst, rfl, rfl, rfl⟩
  · intro v v' now k h
    obtain ⟨st, hst, _, _, rfl⟩ := aes_del_ok v v' now k h
    exact ⟨st, _, hst, rfl, rfl, rfl⟩
  · intro id cfg ids now v' h
    simp only [AgeVault.init] at h
    cases hadd : addRecipientsToState
        { metadata := { created := now, lastModified := now }, version := 1, id := id,
          recipients := cfg, secrets := [] } cfg with
    | error e => rw [hadd] at h; simp at h
    | ok st =>
      rw [hadd] at h
      have hmd : st.metadata = { created := now, lastModified := now } :=
        addRecipientsToState_metadata cfg _ st hadd
      by_cases hemp : st.recipients.isEmpty
      · simp [hemp] at h
      · rcases parseRecipientsList_eq st.recipients with hp | hp
        · simp only [hemp, hp, AgeVault.save, Bool.false_eq_true, if_false, if_neg] at h
          simp [hemp] at h
          refine ⟨_, by rw [← h], by rw [hmd], rfl⟩
        · simp [hemp, hp] at h
  · intro v v' now k val h
    obtain ⟨st, hst, _, rfl⟩ := age_set_ok v v' now k val h
    exact ⟨st, _, hst, rfl, rfl, rfl⟩
  · intro v v' now k h
    obtain ⟨st, hst, _, _, rfl⟩ := age_del_ok v v' now k h
    exact ⟨st, _, hst, rfl, rfl, rfl⟩
  · intro v v' now pk h
    obtain ⟨st, st1, hst, hadd, _, rfl⟩ := age_add_ok v v' now pk h
    refine ⟨st, _, hst, rfl, ?_, rfl⟩
    simp [(addRecipientToState_ok st st1 pk hadd).1]
  · intro v v' now pk h
    obtain ⟨st, hst, _, _, rfl⟩ := age_remove_ok v v' now pk h
    exact ⟨st, _, hst, rfl, rfl, rfl⟩

/-- Witness for C8 at concrete vaults: a fresh symmetric vault carries
both timestamps at creation time, and a successful `SetSecret` preserves
`created` while stamping `last_modified`. -/
theorem c8_metadata_lifecycle_witness :
    (∃ st, (⟨"v", some ⟨⟨7, 7⟩, 1, "v", []⟩, "k"⟩ : AES256Vault).state = some st ∧
      st.metadata.created = 7 ∧ st.metadata.lastModified = 7) ∧
    (∃ st st', (⟨"v", some ⟨⟨1, 1⟩, 1, "v", []⟩, "k"⟩ : AES256Vault).state = some st ∧
      (⟨"v", some ⟨⟨1, 9⟩, 1, "v", [("a", "x")]⟩, "k"⟩ : AES256Vault).state = some st' ∧
      st'.metadata.created = st.metadata.created ∧ st'.metadata.lastModified = 9) ∧
    (∃ st st', (⟨"v", ["age1a"], some ⟨⟨1, 1⟩, 1, "v", ["age1a"], []⟩, ["age1a"],
        []⟩ : AgeVault).state = some st ∧
      (⟨"v", ["age1a"], some ⟨⟨1, 9⟩, 1, "v", ["age1a", "age1b"], []⟩, ["age1a", "age1b"],
        []⟩ : AgeVault).state = some st' ∧
      st'.metadata.created = st.metadata.created ∧ st'.metadata.lastModified = 9) := by
  refine ⟨?_, ?_, ?_⟩
  · exact c8_metadata_lifecycle.1 "v" ["k"] 7 ⟨"v", some ⟨⟨7, 7⟩, 1, "v", []⟩, "k"⟩ rfl
  · exact c8_metadata_lifecycle.2.1 ⟨"v", some ⟨⟨1, 1⟩, 1, "v", []⟩, "k"⟩
      ⟨"v", some ⟨⟨1, 9⟩, 1, "v", [("a", "x")]⟩, "k"⟩ 9 "a" "x" rfl
  · exact c8_metadata_lifecycle.2.2.2.2.2.2.1
      ⟨"v", ["age1a"], some ⟨⟨1, 1⟩, 1, "v", ["age1a"], []⟩, ["age1a"], []⟩
      ⟨"v", ["age1a"], some ⟨⟨1, 9⟩, 1, "v", ["age1a", "age1b"], []⟩, ["age1a", "age1b"], []⟩
      9 "age1b" rfl

end Vault
